import Mathlib

/-!
Verification of the hono-universal-cache repository.

The development shallowly embeds the cache-aside middleware and its
storage-facing cache manager:

* `src/packages/hono-universal-cache/src/utils.ts` — `generateCacheKey`,
  `isCacheableStatus`, `isExpired`;
* `src/src/utils.ts` — `shouldSkipCache` (the Vary-header admission rule,
  present only in the older snapshot of the middleware);
* `src/src/cache.ts` — `CacheManager` (`serializeResponse`,
  `deserializeResponse`, `get`, `set`, `has`, `delete`);
* `src/packages/hono-universal-cache/src/index.ts` — `universalCache`,
  the middleware control flow.

Machine integers are modelled as `Nat` (all timestamps are nonnegative epoch
milliseconds and never overflow a JS double in the ranges considered).
Asynchronous functions are modelled as pure functions over an explicit
backend state; `try`/`catch` blocks are modelled with `Except`-valued inner
operations pattern-matched by the catching caller.

The code manipulates WHATWG Fetch `Response` and `Headers` objects, which are
platform objects, not repository code.  They are modelled after the Fetch
standard:

* a `Headers` object holds a list of name/value pairs with the case and order
  in which they were appended;
* `Headers.get` is case-insensitive and joins the values of all matching
  entries with a comma and a space;
* iteration (`forEach`, `entries`) yields each distinct byte-lowercased name
  once, in ascending lexicographic order, with its combined value
  (the "sort and combine" algorithm; the newer set-cookie exception is not
  modelled);
* constructing a `Response` from a string body appends a default
  `content-type: text/plain;charset=UTF-8` header when none is present.
-/

/-- ASCII byte-lowercasing of a character, as applied to header names by the
Fetch standard.  Characters outside `A`–`Z` are unchanged. -/
def lowerChar (c : Char) : Char :=
  if 65 ≤ c.toNat ∧ c.toNat ≤ 90 then Char.ofNat (c.toNat + 32) else c

/-- Byte-lowercasing of a header name. -/
def lowerStr (s : String) : String :=
  String.mk (s.data.map lowerChar)

/-- The values of all headers in `hs` whose byte-lowercased name equals `n`
(`n` is expected to be already lowercased), in order of appearance. -/
def valuesFor (hs : List (String × String)) (n : String) : List String :=
  (hs.filter (fun kv => lowerStr kv.fst == n)).map Prod.snd

/-- Model of `Headers.get(name)`: case-insensitive lookup; the values of all matching
entries are joined with a comma and a space; absent name gives `null`. -/
def getH (hs : List (String × String)) (name : String) : Option String :=
  let vs := valuesFor hs (lowerStr name)
  if vs.isEmpty then none else some (String.intercalate ", " vs)

/-- The distinct byte-lowercased names of `hs`, in order of first
appearance. -/
def headerNames (hs : List (String × String)) : List String :=
  (hs.map (fun kv => lowerStr kv.fst)).dedup

/-- Lexicographic order on character lists by code point (for the ASCII
header names of interest, byte order). -/
def charsLe : List Char → List Char → Bool
  | [], _ => true
  | _ :: _, [] => false
  | a :: as, b :: bs =>
    if a.toNat < b.toNat then true
    else if b.toNat < a.toNat then false
    else charsLe as bs

/-- Lexicographic order on header names. -/
def strLe (a b : String) : Bool := charsLe a.data b.data

/-- The "sort and combine" algorithm of the Fetch standard: header iteration
yields each distinct byte-lowercased name once, in ascending lexicographic
order, paired with the comma-joined values of its occurrences.  This is the
order `response.headers.forEach` visits in `serializeResponse`. -/
def sortCombine (hs : List (String × String)) : List (String × String) :=
  (List.insertionSort (fun a b : String => strLe a b = true) (headerNames hs)).map
    (fun n => (n, String.intercalate ", " (valuesFor hs n)))

/-- Model of a Fetch `Response` as observed by the cache layer: status line,
raw header list, and the text of the body.  `textOk` records whether reading
the body as text succeeds (`response.text()` rejects for an already-consumed
or failing body stream). -/
structure Response where
  status : Nat
  statusText : String
  headers : List (String × String)
  bodyText : String
  textOk : Bool
deriving DecidableEq, Repr

/-- The default content type the `Response` constructor attaches to a string
body. -/
def defaultContentType : String := "text/plain;charset=UTF-8"

/-- Model of `new Response(body, { status, statusText, headers })` for a
string `body`: per the Fetch standard, extracting a string body appends
`content-type: text/plain;charset=UTF-8` unless the supplied headers already
contain a Content-Type. -/
def responseCtor (body : String) (hdrs : List (String × String))
    (status : Nat) (statusText : String) : Response :=
  let hs := if (getH hdrs "Content-Type").isSome then hdrs
            else hdrs ++ [("content-type", defaultContentType)]
  { status := status, statusText := statusText, headers := hs,
    bodyText := body, textOk := true }

/-- Observational equivalence of responses: same status line, same body text,
and the same result for every (case-insensitive) header lookup. -/
def respEquiv (a b : Response) : Prop :=
  a.status = b.status ∧ a.statusText = b.statusText ∧
  a.bodyText = b.bodyText ∧ ∀ name, getH a.headers name = getH b.headers name

/-! ## Utility functions (src/packages/hono-universal-cache/src/utils.ts and
src/src/utils.ts) -/

/-- Embedding of `generateCacheKey` (src/packages/hono-universal-cache/src/utils.ts,
lines 11–20).  A request is its method and full URL; an optional custom
`keyGenerator` result is used verbatim, otherwise the key is
`"METHOD:url"`.  Asynchronous generators are modelled by their resolved
value. -/
structure Request where
  method : String
  url : String
deriving DecidableEq, Repr

def generateCacheKey (req : Request) (keyGenerator : Option (Request → String)) :
    String :=
  match keyGenerator with
  | some f => f req
  | none => req.method ++ ":" ++ req.url

/-- Embedding of `isCacheableStatus` (both utils.ts copies, identical): membership of the
status in the configured set of cacheable status codes. -/
def isCacheableStatus (status : Nat) (cacheableStatusCodes : List Nat) : Bool :=
  cacheableStatusCodes.contains status

/-- Embedding of `shouldSkipCache` (src/src/utils.ts, lines 29–35): skip caching when a
`Vary` header is present and its value contains a `*`.  For the
single-character needle of the source, `vary.includes` is membership of the
character among the characters of the value. -/
def shouldSkipCache (res : Response) : Bool :=
  match getH res.headers "Vary" with
  | none => false
  | some vary => vary.data.contains '*'

/-- JS truthiness of the `ttl` option: `undefined` and `0` are falsy.  This is
the test `if (!ttl)` / `if (this.ttl)` performs in the source. -/
def ttlTruthy (ttl : Option Nat) : Bool :=
  match ttl with
  | none => false
  | some t => t != 0

/-- Embedding of `isExpired` (both utils.ts copies, identical, lines 43–50 resp. 58–65):
a falsy `ttl` never expires; otherwise the entry is expired exactly when
`now > cachedAt + ttl * 1000`.  `Date.now()` is modelled by the explicit
`now` argument. -/
def isExpired (cachedAt : Nat) (ttl : Option Nat) (now : Nat) : Bool :=
  match ttl with
  | none => false
  | some t => if t == 0 then false else decide (cachedAt + t * 1000 < now)

/-! ## Cache manager (src/src/cache.ts) -/

/-- Embedding of `CachedResponse` (types.ts): the serialized form of a response. -/
structure CachedResponse where
  body : String
  headers : List (String × String)
  status : Nat
  statusText : String
  cachedAt : Nat
deriving DecidableEq, Repr

/-- Embedding of `CacheMetadata` (types.ts): the advisory side record written by `set`
when a TTL is configured. -/
structure CacheMetadataRec where
  mtime : Nat
  expires : Nat
deriving DecidableEq, Repr

/-- The key-value state of an unstorage backend: the stored entries and the
stored metadata records. -/
structure StoreState where
  items : List (String × CachedResponse)
  meta : List (String × CacheMetadataRec)
deriving DecidableEq, Repr

/-- An unstorage backend: its state plus fault flags saying which operations
throw.  A raised backend error is an `Except.error`. -/
structure Backend where
  state : StoreState
  failGet : Bool
  failSet : Bool
  failRemove : Bool
  failSetMeta : Bool
deriving DecidableEq, Repr

def lookupItem (l : List (String × CachedResponse)) (k : String) :
    Option CachedResponse :=
  (l.find? (fun kv => kv.fst == k)).map Prod.snd

def putAssoc {α : Type} (l : List (String × α)) (k : String) (v : α) :
    List (String × α) :=
  (k, v) :: l.filter (fun kv => kv.fst != k)

/-- Model of `storage.getItem(key)`. -/
def storageGetItem (b : Backend) (k : String) :
    Except Unit (Option CachedResponse) :=
  if b.failGet then .error () else .ok (lookupItem b.state.items k)

/-- Model of `storage.setItem(key, value)`. -/
def storageSetItem (b : Backend) (k : String) (v : CachedResponse) :
    Except Unit Backend :=
  if b.failSet then .error ()
  else .ok { b with state := { b.state with items := putAssoc b.state.items k v } }

/-- Model of `storage.removeItem(key)`. -/
def storageRemoveItem (b : Backend) (k : String) : Except Unit Backend :=
  if b.failRemove then .error ()
  else .ok { b with state :=
    { b.state with items := b.state.items.filter (fun kv => kv.fst != k) } }

/-- Model of `storage.setMeta(key, metadata)`. -/
def storageSetMeta (b : Backend) (k : String) (m : CacheMetadataRec) :
    Except Unit Backend :=
  if b.failSetMeta then .error ()
  else .ok { b with state := { b.state with meta := putAssoc b.state.meta k m } }

/-- Embedding of `CacheManager.serializeResponse` (src/src/cache.ts, lines 35–50):
`await response.text()` (which may reject, modelled by `textOk`), then copy
the headers in the order `forEach` yields them (sort-and-combine, into a
plain record whose keys are therefore unique), and record status, statusText
and `Date.now()`. -/
def CacheManager.serializeResponse (response : Response) (now : Nat) :
    Except Unit CachedResponse :=
  if response.textOk then
    .ok { body := response.bodyText, headers := sortCombine response.headers,
          status := response.status, statusText := response.statusText,
          cachedAt := now }
  else .error ()

/-- Embedding of `CacheManager.deserializeResponse` (src/src/cache.ts, lines 58–66):
`new Headers(cached.headers)` followed by
`new Response(cached.body, { status, statusText, headers })`. -/
def CacheManager.deserializeResponse (cached : CachedResponse) : Response :=
  responseCtor cached.body cached.headers cached.status cached.statusText

/-- Embedding of `CacheManager.delete` (src/src/cache.ts, lines 151–157): remove the item,
swallowing backend errors. -/
def CacheManager.delete (b : Backend) (key : String) : Backend :=
  match storageRemoveItem b key with
  | .error _ => b
  | .ok b2 => b2

/-- Embedding of `CacheManager.get` (src/src/cache.ts, lines 78–98).  The whole body is a
`try` block whose `catch` returns `null`; a missing entry is `null`; an
expired entry is deleted and reported `null`; otherwise the entry is
deserialized.  The result pairs the returned value with the backend state
after the call. -/
def CacheManager.get (ttl : Option Nat) (b : Backend) (key : String)
    (now : Nat) : Option Response × Backend :=
  match storageGetItem b key with
  | .error _ => (none, b)
  | .ok none => (none, b)
  | .ok (some cached) =>
    if isExpired cached.cachedAt ttl now then
      (none, CacheManager.delete b key)
    else
      (some (CacheManager.deserializeResponse cached), b)

/-- Embedding of `CacheManager.set` (src/src/cache.ts, lines 106–124).  Serialize, store
the entry, and, when the TTL is truthy, store a metadata record with
`mtime = cachedAt` and `expires = cachedAt + ttl * 1000`.  Any raised error
(serialization, `setItem`, or `setMeta`) is caught and swallowed, leaving
whatever state the failing step had already produced. -/
def CacheManager.set (ttl : Option Nat) (b : Backend) (key : String)
    (response : Response) (now : Nat) : Backend :=
  match CacheManager.serializeResponse response now with
  | .error _ => b
  | .ok serialized =>
    match storageSetItem b key serialized with
    | .error _ => b
    | .ok b1 =>
      if ttlTruthy ttl then
        match storageSetMeta b1 key
          { mtime := serialized.cachedAt,
            expires := serialized.cachedAt + (ttl.getD 0) * 1000 } with
        | .error _ => b1
        | .ok b2 => b2
      else b1

/-- Embedding of `CacheManager.has` (src/src/cache.ts, lines 132–144): read the raw entry,
report `false` on a missing entry or a caught backend error, and otherwise
report non-expiry. -/
def CacheManager.has (ttl : Option Nat) (b : Backend) (key : String)
    (now : Nat) : Bool :=
  match storageGetItem b key with
  | .error _ => false
  | .ok none => false
  | .ok (some cached) => !isExpired cached.cachedAt ttl now

/-! ## Middleware (src/packages/hono-universal-cache/src/index.ts) -/

/-- Static middleware configuration, as consumed by `universalCache`.
`cacheName` may be a function of the request in the source; it is modelled by
its resolved string value.  `keyGenerator` is passed separately so the
configuration stays a first-order datum. -/
structure CacheConfig where
  cacheName : String
  cacheableStatusCodes : List Nat := [200]
  ttl : Option Nat := none
deriving DecidableEq, Repr

/-- The execution environment of a request: the value `getRuntimeKey()`
reports, and whether an `executionCtx.waitUntil` hook is reachable. -/
structure Env where
  runtimeKey : String
  hasWaitUntil : Bool
deriving DecidableEq, Repr

/-- How the middleware scheduled the cache write on an admitted miss:
registered with `waitUntil` (the caller does not wait for it), awaited inline
before returning, or started without either (fire-and-forget). -/
inductive PersistMode where
  | notAttempted
  | background
  | awaited
  | fireAndForget
deriving DecidableEq, Repr

/-- The observable outcome of one middleware invocation: the response served
to the caller, whether downstream execution ran, the derived cache key used
for both the lookup and the store, whether `cacheManager.set` was invoked,
how the write was scheduled, and the backend state once the request and any
started write have settled. -/
structure MWResult where
  response : Response
  ranHandler : Bool
  key : String
  setCalled : Bool
  mode : PersistMode
  store : Backend
deriving DecidableEq, Repr

/-- The hit path `return new Response(cachedResponse.body, cachedResponse)`:
the body is the deserialized response body stream (no string-body
content-type injection), and the header init re-iterates the deserialized
headers (sort-and-combine). -/
def reconstructHit (d : Response) : Response :=
  { d with headers := sortCombine d.headers }

/-- Embedding of `universalCache` (src/packages/hono-universal-cache/src/index.ts,
lines 118–156).  Derive the key, look it up; on a hit return the
reconstruction without running downstream; on a miss run downstream
(`handler` is the response `next()` leaves in `c.res`), return unless the
status is cacheable, otherwise clone and start `cacheManager.set`, then
register it with `waitUntil` when `getRuntimeKey()` is the literal string
`"workerd"` (skipping silently when the hook is unreachable, per the optional
chain) and await it inline in every other runtime.  `now` models
`Date.now()` during the request. -/
def universalCache (cfg : CacheConfig) (keyGenerator : Option (Request → String))
    (env : Env) (req : Request) (handler : Response) (b : Backend)
    (now : Nat) : MWResult :=
  let baseKey := generateCacheKey req keyGenerator
  let key := cfg.cacheName ++ ":" ++ baseKey
  match CacheManager.get cfg.ttl b key now with
  | (some cached, b1) =>
    { response := reconstructHit cached, ranHandler := false, key := key,
      setCalled := false, mode := .notAttempted, store := b1 }
  | (none, b1) =>
    if !isCacheableStatus handler.status cfg.cacheableStatusCodes then
      { response := handler, ranHandler := true, key := key,
        setCalled := false, mode := .notAttempted, store := b1 }
    else
      let b2 := CacheManager.set cfg.ttl b1 key handler now
      let mode : PersistMode :=
        if env.runtimeKey == "workerd" then
          if env.hasWaitUntil then .background else .fireAndForget
        else .awaited
      { response := handler, ranHandler := true, key := key,
        setCalled := true, mode := mode, store := b2 }

/-! ## Derived definitions and concrete fixtures used by the theorems -/

/-- The codec round trip: serialize, then deserialize.  `none` when reading
the body text fails. -/
def roundTrip (r : Response) (now : Nat) : Option Response :=
  match CacheManager.serializeResponse r now with
  | .error _ => none
  | .ok e => some (CacheManager.deserializeResponse e)

/-- A fresh, fault-free in-memory backend. -/
def emptyBackend : Backend :=
  { state := { items := [], meta := [] }, failGet := false, failSet := false,
    failRemove := false, failSetMeta := false }

/-- A backend whose every operation throws. -/
def faultyBackend : Backend :=
  { state := { items := [], meta := [] }, failGet := true, failSet := true,
    failRemove := true, failSetMeta := true }

/-- A 200 response whose headers carry no Content-Type (reachable in the
Fetch API by deleting the header after construction). -/
def noCtResponse : Response :=
  { status := 200, statusText := "OK", headers := [], bodyText := "hi",
    textOk := true }

/-- A 200 response with mixed-case header names that are out of
lexicographic order. -/
def mixedCaseResponse : Response :=
  { status := 200, statusText := "OK",
    headers := [("X-B", "1"), ("A", "2"), ("content-type", "text/plain")],
    bodyText := "x", textOk := true }

/-- A 200 response declaring `Vary: *`. -/
def varyStarResponse : Response :=
  { status := 200, statusText := "OK",
    headers := [("content-type", "application/json"), ("Vary", "*")],
    bodyText := "v", textOk := true }

/-- A plain 200 JSON response, as a Hono handler produces on success. -/
def okJsonResponse : Response :=
  { status := 200, statusText := "OK",
    headers := [("content-type", "application/json")],
    bodyText := "\x7b\"count\":1\x7d", textOk := true }

/-! ## Lemmas about the Headers model -/

theorem charsLe_total : ∀ as bs, charsLe as bs = true ∨ charsLe bs as = true := by
  intro as
  induction as with
  | nil =>
    intro bs
    left
    rfl
  | cons a as ih =>
    intro bs
    cases bs with
    | nil =>
      right
      rfl
    | cons b bs =>
      by_cases h1 : a.toNat < b.toNat
      · left
        simp [charsLe, h1]
      · by_cases h2 : b.toNat < a.toNat
        · right
          simp [charsLe, h2]
        · rcases ih bs with h | h
          · left
            simp [charsLe, h1, h2, h]
          · right
            simp [charsLe, h1, h2, h]

theorem charsLe_trans : ∀ as bs cs, charsLe as bs = true → charsLe bs cs = true →
    charsLe as cs = true := by
  intro as
  induction as with
  | nil =>
    intro bs cs hab hbc
    rfl
  | cons a as ih =>
    intro bs cs hab hbc
    cases bs with
    | nil => simp [charsLe] at hab
    | cons b bs =>
      cases cs with
      | nil => simp [charsLe] at hbc
      | cons c cs =>
        simp only [charsLe] at hab hbc ⊢
        split_ifs at hab hbc ⊢ <;>
          first
            | rfl
            | omega
            | exact ih bs cs hab hbc

instance : IsTotal String (fun a b : String => strLe a b = true) :=
  ⟨fun a b => charsLe_total a.data b.data⟩

instance : IsTrans String (fun a b : String => strLe a b = true) :=
  ⟨fun a b c => charsLe_trans a.data b.data c.data⟩

theorem charOfNat_toNat_letter : ∀ n : Nat, 65 ≤ n → n ≤ 90 →
    (Char.ofNat (n + 32)).toNat = n + 32 := by
  intro n h1 h2; interval_cases n <;> decide

theorem lowerChar_lowerChar (c : Char) : lowerChar (lowerChar c) = lowerChar c := by
  by_cases h : 65 ≤ c.toNat ∧ c.toNat ≤ 90
  · simp only [lowerChar, if_pos h]
    rw [charOfNat_toNat_letter c.toNat h.1 h.2, if_neg (by omega)]
  · simp only [lowerChar, if_neg h]

theorem lowerStr_lowerStr (s : String) : lowerStr (lowerStr s) = lowerStr s := by
  have h : lowerChar ∘ lowerChar = lowerChar := funext lowerChar_lowerChar
  simp only [lowerStr, List.map_map, h]

theorem intercalate_singleton (a : String) : String.intercalate ", " [a] = a := rfl

theorem filter_beq_of_nodup (l : List String) (hl : l.Nodup) (t : String) :
    l.filter (fun n => n == t) = if t ∈ l then [t] else [] := by
  induction l with
  | nil => simp
  | cons a l ih =>
    rw [List.nodup_cons] at hl
    by_cases hat : a = t
    · subst hat
      simp [List.filter_cons, ih hl.2, hl.1]
    · simp [List.filter_cons, hat, ih hl.2, Ne.symm hat]

theorem valuesFor_isEmpty_iff (hs : List (String × String)) (t : String) :
    (valuesFor hs t).isEmpty = true ↔ ¬ t ∈ headerNames hs := by
  simp only [valuesFor, headerNames, List.isEmpty_iff, List.map_eq_nil_iff,
    List.filter_eq_nil_iff, List.mem_dedup, List.mem_map, beq_iff_eq]
  constructor
  · rintro h ⟨kv, hkv, he⟩
    exact h kv hkv he
  · intro h kv hkv he
    exact h ⟨kv, hkv, he⟩

theorem sortedNames_nodup (hs : List (String × String)) :
    (List.insertionSort (fun a b : String => strLe a b = true) (headerNames hs)).Nodup :=
  ((List.perm_insertionSort _ _).nodup_iff).mpr (List.nodup_dedup _)

theorem sortedNames_lower (hs : List (String × String)) :
    ∀ n ∈ List.insertionSort (fun a b : String => strLe a b = true) (headerNames hs),
      lowerStr n = n := by
  intro n hn
  have hmem : n ∈ headerNames hs := (List.perm_insertionSort _ _).mem_iff.mp hn
  obtain ⟨kv, hkv, rfl⟩ :=
    (List.mem_map).mp ((List.mem_dedup).mp hmem)
  exact lowerStr_lowerStr _

theorem valuesFor_sortCombine (hs : List (String × String)) (t : String) :
    valuesFor (sortCombine hs) t =
      if t ∈ headerNames hs then [String.intercalate ", " (valuesFor hs t)]
      else [] := by
  unfold sortCombine
  rw [valuesFor, List.filter_map]
  have h1 : (List.insertionSort (fun a b : String => strLe a b = true) (headerNames hs)).filter
      ((fun kv : String × String => lowerStr kv.fst == t) ∘
        (fun n => (n, String.intercalate ", " (valuesFor hs n)))) =
      (List.insertionSort (fun a b : String => strLe a b = true) (headerNames hs)).filter
      (fun n => n == t) := by
    apply List.filter_congr
    intro n hn
    simp only [Function.comp]
    rw [sortedNames_lower hs n hn]
  rw [h1, filter_beq_of_nodup _ (sortedNames_nodup hs) t]
  by_cases hmem : t ∈ headerNames hs
  · rw [if_pos ((List.perm_insertionSort _ _).mem_iff.mpr hmem), if_pos hmem]
    simp
  · rw [if_neg (fun h => hmem ((List.perm_insertionSort _ _).mem_iff.mp h)),
      if_neg hmem]
    simp

theorem getH_sortCombine (hs : List (String × String)) (name : String) :
    getH (sortCombine hs) name = getH hs name := by
  simp only [getH, lowerStr_lowerStr]
  rw [valuesFor_sortCombine]
  by_cases hmem : lowerStr name ∈ headerNames hs
  · rw [if_pos hmem]
    have hne : ¬ (valuesFor hs (lowerStr name)).isEmpty = true := by
      rw [valuesFor_isEmpty_iff]
      simpa using hmem
    simp only [List.isEmpty_cons, Bool.false_eq_true, if_false,
      intercalate_singleton]
    rw [if_neg hne]
  · rw [if_neg hmem]
    have he : (valuesFor hs (lowerStr name)).isEmpty = true :=
      (valuesFor_isEmpty_iff hs _).mpr hmem
    simp [he]

/-! ## Lemmas about the cache manager and the middleware -/

theorem lookupItem_putAssoc (l : List (String × CachedResponse)) (k : String)
    (v : CachedResponse) : lookupItem (putAssoc l k v) k = some v := by
  simp [lookupItem, putAssoc]

theorem CacheManager.set_ok (ttl : Option Nat) (b : Backend) (key : String)
    (resp : Response) (now : Nat) (htext : resp.textOk = true)
    (hfs : b.failSet = false) :
    ∃ e, CacheManager.serializeResponse resp now = Except.ok e ∧
      e.cachedAt = now ∧
      (CacheManager.set ttl b key resp now).state.items =
        putAssoc b.state.items key e ∧
      (CacheManager.set ttl b key resp now).failGet = b.failGet := by
  refine ⟨{ body := resp.bodyText, headers := sortCombine resp.headers,
            status := resp.status, statusText := resp.statusText,
            cachedAt := now }, ?_, rfl, ?_, ?_⟩
  · simp [CacheManager.serializeResponse, htext]
  all_goals
    cases hsm : b.failSetMeta <;>
      cases htt : ttlTruthy ttl <;>
        simp [CacheManager.set, CacheManager.serializeResponse, storageSetItem,
          storageSetMeta, htext, hfs, hsm, htt]

theorem sortCombine_map_fst (hs : List (String × String)) :
    (sortCombine hs).map Prod.fst =
      List.insertionSort (fun a b : String => strLe a b = true)
        (headerNames hs) := by
  have h : (Prod.fst ∘ fun n : String =>
      (n, String.intercalate ", " (valuesFor hs n))) = fun n => n := rfl
  simp only [sortCombine, List.map_map, h]
  exact List.map_id _

theorem universalCache_key_eq (cfg : CacheConfig)
    (kg : Option (Request → String)) (env : Env) (req : Request)
    (handler : Response) (b : Backend) (now : Nat) :
    (universalCache cfg kg env req handler b now).key =
      cfg.cacheName ++ ":" ++ generateCacheKey req kg := by
  simp only [universalCache]
  rcases CacheManager.get cfg.ttl b
    (cfg.cacheName ++ ":" ++ generateCacheKey req kg) now with ⟨_ | c, b1⟩
  · cases hc : isCacheableStatus handler.status cfg.cacheableStatusCodes <;>
      simp [hc]
  · rfl

/-! ## Claims -/

/-- C1: the claim says that under the default configuration a response to a
non-GET request is never persisted.  The middleware in
src/packages/hono-universal-cache/src/index.ts performs no method check at
all (and its `CacheOptions` type has no `bypassMethodCheck` field), so a
POST response with a cacheable status IS persisted under the derived key:
the package's own test suite
(tests/middleware.test.ts, "should only cache GET requests by default" and
"should not create cache entries for non-GET methods by default") requires
the opposite, so this is a code bug, not a spec error. -/
theorem c1_nonGet_persisted_by_default :
    (universalCache { cacheName := "method-cache" } none
      { runtimeKey := "node", hasWaitUntil := false }
      { method := "POST", url := "http://localhost/api" }
      okJsonResponse emptyBackend 0).setCalled = true ∧
    lookupItem (universalCache { cacheName := "method-cache" } none
      { runtimeKey := "node", hasWaitUntil := false }
      { method := "POST", url := "http://localhost/api" }
      okJsonResponse emptyBackend 0).store.state.items
      "method-cache:POST:http://localhost/api" ≠ none := by decide

/-- C2: the claim says a response whose Vary header value contains `*` is
never persisted.  `shouldSkipCache` (src/src/utils.ts) implements exactly
this test and flags the response, but the packaged middleware
(src/packages/hono-universal-cache/src/index.ts) never calls it: a 200
response with `Vary: *` is persisted.  The spec itself (design notes) calls
the variant that drops the check an inconsistency, and the repository's
tests (src/tests/middleware.test.ts, "should not cache responses with
Vary: *") require the check, so this is a code bug. -/
theorem c2_vary_star_response_persisted :
    shouldSkipCache varyStarResponse = true ∧
    (universalCache { cacheName := "vary-cache" } none
      { runtimeKey := "node", hasWaitUntil := false }
      { method := "GET", url := "http://localhost/api" }
      varyStarResponse emptyBackend 0).setCalled = true ∧
    lookupItem (universalCache { cacheName := "vary-cache" } none
      { runtimeKey := "node", hasWaitUntil := false }
      { method := "GET", url := "http://localhost/api" }
      varyStarResponse emptyBackend 0).store.state.items
      "vary-cache:GET:http://localhost/api" ≠ none := by decide

/-- C3: an entry written at time `T` under TTL `S > 0` seconds is returned by
`CacheManager.get` at every time `now ≤ T + S*1000` (the boundary instant is
still a hit, since expiry requires strict `now > expiresAt`) and is absent
for every `now > T + S*1000`. -/
theorem c3_ttl_boundary_hit_then_miss (S T now : Nat) (b : Backend)
    (key : String) (resp : Response) (hS : 0 < S) (htext : resp.textOk = true)
    (hfs : b.failSet = false) (hfg : b.failGet = false) :
    (now ≤ T + S * 1000 →
      ∃ e, CacheManager.serializeResponse resp T = Except.ok e ∧
        (CacheManager.get (some S) (CacheManager.set (some S) b key resp T)
          key now).fst = some (CacheManager.deserializeResponse e)) ∧
    (T + S * 1000 < now →
      (CacheManager.get (some S) (CacheManager.set (some S) b key resp T)
        key now).fst = none) := by
  obtain ⟨e, hser, hcat, hitems, hflag⟩ :=
    CacheManager.set_ok (some S) b key resp T htext hfs
  have hget : storageGetItem (CacheManager.set (some S) b key resp T) key =
      Except.ok (some e) := by
    simp [storageGetItem, hflag, hfg, hitems, lookupItem_putAssoc]
  have hSne : (S == 0) = false := by simp; omega
  constructor
  · intro hle
    refine ⟨e, hser, ?_⟩
    have hexp : isExpired e.cachedAt (some S) now = false := by
      simp [isExpired, hSne, hcat]; omega
    simp [CacheManager.get, hget, hexp]
  · intro hlt
    have hexp : isExpired e.cachedAt (some S) now = true := by
      simp [isExpired, hSne, hcat]; omega
    simp [CacheManager.get, hget, hexp]

/-- Witness for C3: with a 1-second TTL, a write at time 0 is a hit at the
boundary instant 1000 and a miss at 1001. -/
theorem c3_ttl_boundary_hit_then_miss_witness :
    (∃ e, CacheManager.serializeResponse okJsonResponse 0 = Except.ok e ∧
      (CacheManager.get (some 1)
        (CacheManager.set (some 1) emptyBackend "k" okJsonResponse 0)
        "k" 1000).fst = some (CacheManager.deserializeResponse e)) ∧
    (CacheManager.get (some 1)
      (CacheManager.set (some 1) emptyBackend "k" okJsonResponse 0)
      "k" 1001).fst = none :=
  ⟨(c3_ttl_boundary_hit_then_miss 1 0 1000 emptyBackend "k" okJsonResponse
      (by decide) rfl rfl rfl).1 (by decide),
   (c3_ttl_boundary_hit_then_miss 1 0 1001 emptyBackend "k" okJsonResponse
      (by decide) rfl rfl rfl).2 (by decide)⟩

/-- C4, counterexample: the claim promises observational equivalence of
`deserialize(serialize(r))` with `r` for every text response, but
reconstruction goes through the `Response` constructor, which adds a default
`content-type: text/plain;charset=UTF-8` to a string body.  A response with
no Content-Type header therefore answers differently for the Content-Type
lookup after one round trip. -/
theorem c4_roundtrip_drops_missing_content_type :
    (roundTrip noCtResponse 0).isSome = true ∧
    ((roundTrip noCtResponse 0).getD noCtResponse).headers ≠
      noCtResponse.headers ∧
    getH ((roundTrip noCtResponse 0).getD noCtResponse).headers
        "Content-Type" ≠
      getH noCtResponse.headers "Content-Type" := by decide

/-- C4, amended: for every response with a readable text body whose headers
contain a Content-Type (case-insensitively), deserializing the result of
serializing it yields a response observationally equivalent to the original
in status, status text, body text, and every case-insensitive header
lookup. -/
theorem c4_roundtrip_with_content_type (r : Response) (now : Nat)
    (htext : r.textOk = true)
    (hct : (getH r.headers "Content-Type").isSome = true) :
    ∃ r2, roundTrip r now = some r2 ∧ respEquiv r2 r := by
  have hser : roundTrip r now = some
      { status := r.status, statusText := r.statusText,
        headers := sortCombine r.headers, bodyText := r.bodyText,
        textOk := true } := by
    simp [roundTrip, CacheManager.serializeResponse, htext,
      CacheManager.deserializeResponse, responseCtor, getH_sortCombine, hct]
  exact ⟨_, hser, rfl, rfl, rfl, fun name => getH_sortCombine r.headers name⟩

/-- Witness for C4: the JSON fixture response round-trips to an equivalent
response. -/
theorem c4_roundtrip_with_content_type_witness :
    okJsonResponse.textOk = true ∧
    (getH okJsonResponse.headers "Content-Type").isSome = true ∧
    ∃ r2, roundTrip okJsonResponse 7 = some r2 ∧ respEquiv r2 okJsonResponse :=
  ⟨rfl, by decide,
   c4_roundtrip_with_content_type okJsonResponse 7 rfl (by decide)⟩

/-- C5: with no `keyGenerator` configured, the derived cache key — the one
the middleware passes to both `CacheManager.get` and `CacheManager.set` — is
`namespace:METHOD:url`; with a generator its result is used verbatim after
the `namespace:` prefix. -/
theorem c5_cache_key_format (cfg : CacheConfig) (env : Env) (req : Request)
    (handler : Response) (b : Backend) (now : Nat) :
    ((universalCache cfg none env req handler b now).key =
      cfg.cacheName ++ ":" ++ (req.method ++ ":" ++ req.url)) ∧
    ∀ f, (universalCache cfg (some f) env req handler b now).key =
      cfg.cacheName ++ ":" ++ f req := by
  constructor
  · rw [universalCache_key_eq]
    rfl
  · intro f
    rw [universalCache_key_eq]
    rfl

/-- C6: a backend that throws during `get` yields a miss with the state left
unchanged, and a `set` whose serialization or backend write throws returns
with the state unchanged; neither operation propagates an error (both are
total functions of the modelled try/catch). -/
theorem c6_backend_failures_swallowed (ttl : Option Nat) (b : Backend)
    (key : String) (now : Nat) (resp : Response) :
    (b.failGet = true → CacheManager.get ttl b key now = (none, b)) ∧
    (b.failSet = true ∨ resp.textOk = false →
      CacheManager.set ttl b key resp now = b) := by
  constructor
  · intro h
    simp [CacheManager.get, storageGetItem, h]
  · rintro (h | h)
    · cases htext : resp.textOk <;>
        simp [CacheManager.set, CacheManager.serializeResponse,
          storageSetItem, htext, h]
    · simp [CacheManager.set, CacheManager.serializeResponse, h]

/-- Witness for C6: on the all-faulty backend, `get` reports a miss and `set`
is a no-op. -/
theorem c6_backend_failures_swallowed_witness :
    CacheManager.get none faultyBackend "k" 0 = (none, faultyBackend) ∧
    CacheManager.set none faultyBackend "k" okJsonResponse 0 = faultyBackend :=
  ⟨(c6_backend_failures_swallowed none faultyBackend "k" 0 okJsonResponse).1
      rfl,
   (c6_backend_failures_swallowed none faultyBackend "k" 0 okJsonResponse).2
      (Or.inl rfl)⟩

/-- C7: the claim says the write is registered with the background hook
whenever the environment offers one, and awaited inline only when none
exists.  The code instead tests `getRuntimeKey() === "workerd"`: on Vercel
Edge (runtime key `edge-light`), where `executionCtx.waitUntil` is
available, an admitted miss awaits the write inline instead of registering
it — contradicting the code's own comment ("Use waitUntil if available
(Cloudflare Workers, Vercel Edge)"), so this is a code bug. -/
theorem c7_waituntil_gated_by_runtime_name :
    (universalCache { cacheName := "edge-cache" } none
      { runtimeKey := "edge-light", hasWaitUntil := true }
      { method := "GET", url := "http://localhost/api" }
      okJsonResponse emptyBackend 0).mode = PersistMode.awaited ∧
    (universalCache { cacheName := "edge-cache" } none
      { runtimeKey := "edge-light", hasWaitUntil := true }
      { method := "GET", url := "http://localhost/api" }
      okJsonResponse emptyBackend 0).setCalled = true := by decide

/-- C8: for every key, backend state (including every failure mode), TTL and
time, `CacheManager.has` answers true exactly when `CacheManager.get` on the
same state and time returns an entry. -/
theorem c8_has_agrees_with_get (ttl : Option Nat) (b : Backend) (key : String)
    (now : Nat) :
    CacheManager.has ttl b key now =
      ((CacheManager.get ttl b key now).fst).isSome := by
  unfold CacheManager.has CacheManager.get
  cases hg : storageGetItem b key with
  | error e => simp
  | ok v =>
    cases v with
    | none => simp
    | some cached =>
      cases hexp : isExpired cached.cachedAt ttl now <;> simp [hexp]

/-- C9, counterexample: the claim says the recorded headers mapping keeps
the names in their original case and insertion order, but header iteration
byte-lowercases the names and sorts them, so a response whose headers were
inserted as `X-B`, `A` is recorded as `a`, `content-type`, `x-b`. -/
theorem c9_headers_lowercased_and_sorted_cex :
    (CacheManager.serializeResponse mixedCaseResponse 0).toOption =
      some
        { body := "x",
          headers := [("a", "2"), ("content-type", "text/plain"),
            ("x-b", "1")],
          status := 200, statusText := "OK", cachedAt := 0 } ∧
    [(("a" : String), ("2" : String)), ("content-type", "text/plain"),
        ("x-b", "1")] ≠ mixedCaseResponse.headers := by decide

/-- C9, amended: the mapping recorded in the `CacheEntry` holds every
response header with its name byte-lowercased, one entry per distinct name
in ascending lexicographic order (values of duplicate names joined with a
comma), so re-emission is deterministic and every case-insensitive header
lookup is preserved. -/
theorem c9_recorded_headers_canonical (r : Response) (now : Nat)
    (htext : r.textOk = true) :
    ∃ e, CacheManager.serializeResponse r now = Except.ok e ∧
      e.headers = sortCombine r.headers ∧
      List.Sorted (fun a b : String => strLe a b = true)
        (e.headers.map Prod.fst) ∧
      (e.headers.map Prod.fst).Nodup ∧
      (∀ kv ∈ e.headers, lowerStr kv.fst = kv.fst) ∧
      (∀ name, getH e.headers name = getH r.headers name) := by
  refine ⟨{ body := r.bodyText, headers := sortCombine r.headers,
            status := r.status, statusText := r.statusText, cachedAt := now },
    by simp [CacheManager.serializeResponse, htext], rfl, ?_, ?_, ?_, ?_⟩
  · rw [sortCombine_map_fst]
    exact List.sorted_insertionSort _ _
  · rw [sortCombine_map_fst]
    exact sortedNames_nodup r.headers
  · intro kv hkv
    simp only [sortCombine, List.mem_map] at hkv
    obtain ⟨n, hn, rfl⟩ := hkv
    exact sortedNames_lower r.headers n hn
  · exact fun name => getH_sortCombine r.headers name

/-- Witness for C9: the amended statement instantiated at the mixed-case
fixture response. -/
theorem c9_recorded_headers_canonical_witness :
    mixedCaseResponse.textOk = true ∧
    ∃ e, CacheManager.serializeResponse mixedCaseResponse 3 = Except.ok e ∧
      e.headers = sortCombine mixedCaseResponse.headers ∧
      List.Sorted (fun a b : String => strLe a b = true)
        (e.headers.map Prod.fst) ∧
      (e.headers.map Prod.fst).Nodup ∧
      (∀ kv ∈ e.headers, lowerStr kv.fst = kv.fst) ∧
      (∀ name, getH e.headers name = getH mixedCaseResponse.headers name) :=
  ⟨rfl, c9_recorded_headers_canonical mixedCaseResponse 3 rfl⟩

/-- C10: a TTL of 0 is falsy in JS, so the implementation treats it exactly
like an absent TTL: `isExpired` is constantly false, `get` behaves
identically, `set` behaves identically, and in particular no metadata record
is written. -/
theorem c10_zero_ttl_like_no_ttl :
    (∀ cachedAt now, isExpired cachedAt (some 0) now = false) ∧
    (∀ b key now, CacheManager.get (some 0) b key now =
      CacheManager.get none b key now) ∧
    (∀ b key resp now, CacheManager.set (some 0) b key resp now =
      CacheManager.set none b key resp now) ∧
    (∀ b key resp now,
      (CacheManager.set (some 0) b key resp now).state.meta =
        b.state.meta) := by
  refine ⟨?_, ?_, ?_, ?_⟩
  · intro c n
    simp [isExpired]
  · intro b key now
    unfold CacheManager.get
    cases storageGetItem b key with
    | error e => rfl
    | ok v =>
      cases v with
      | none => rfl
      | some cached => simp [isExpired]
  · intro b key resp now
    unfold CacheManager.set
    cases CacheManager.serializeResponse resp now with
    | error e => rfl
    | ok s =>
      cases storageSetItem b key s with
      | error e => rfl
      | ok b1 => simp [ttlTruthy]
  · intro b key resp now
    cases ht : resp.textOk <;> cases hb : b.failSet <;>
      simp [CacheManager.set, CacheManager.serializeResponse, storageSetItem,
        ht, hb, ttlTruthy]
